import Mathlib

/-!
Formal model of the agro-food price analysis pipeline:
`src/data_processor.py` (field extraction, record normalization, feature
derivation), `src/advanced_features.py` (sentiment, anomaly and elasticity
analyzers) and `src/interactive_features.py` (price forecaster, alert system).

Numeric columns are modelled over `ℚ`; the IEEE special values that pandas and
numpy produce (NaN, ±inf) are modelled explicitly by the `F` type below.
Missing values (`None` / `NaN` cells) are modelled with `Option`.
-/

namespace AgroTableau

/- The rational arithmetic of the Batteries `Rat` is sealed behind
`@[irreducible]`; re-open it so that concrete runs of the pipeline can be
evaluated by `decide`. -/
attribute [local semireducible] Rat.add Rat.sub Rat.mul Rat.inv Rat.ofScientific

/-! ## Python float model

Computations in the analytics layer run on IEEE floats.  We model a float as
either a rational value or one of the special values NaN, +inf, -inf, with the
comparison and arithmetic rules Python/numpy use for them (NaN is absorbing and
all comparisons against it are false).  Real-valued rounding of float
arithmetic is not modelled: arithmetic on ordinary values is exact over `ℚ`.
-/

/-- A Python float: an exact rational or one of the special values. -/
inductive F where
  | nan
  | pinf
  | ninf
  | val (q : ℚ)
deriving DecidableEq, Repr

/-- True iff the float is an ordinary (finite, non-NaN) value. -/
def F.isVal : F → Bool
  | F.val _ => true
  | _ => false

/-- Python `<` on floats: every comparison involving NaN is false. -/
def flt : F → F → Bool
  | F.nan, _ => false
  | _, F.nan => false
  | F.ninf, F.ninf => false
  | F.ninf, _ => true
  | _, F.ninf => false
  | F.pinf, _ => false
  | F.val _, F.pinf => true
  | F.val a, F.val b => a < b

/-- Python `>=` on floats: every comparison involving NaN is false. -/
def fge : F → F → Bool
  | F.nan, _ => false
  | _, F.nan => false
  | F.pinf, _ => true
  | F.ninf, F.ninf => true
  | F.ninf, _ => false
  | F.val _, F.pinf => false
  | F.val _, F.ninf => true
  | F.val a, F.val b => b ≤ a

/-- Python `min(a, b)`: returns `a` unless `b < a`.  With a NaN second
argument the comparison is false, so the first argument is returned. -/
def pymin (a b : F) : F := if flt b a then b else a

/-- Python `max(a, b)`: returns `a` unless `a < b`.  With a NaN second
argument the comparison is false, so the first argument is returned. -/
def pymax (a b : F) : F := if flt a b then b else a

/-- IEEE addition on the float model. -/
def fadd : F → F → F
  | F.val a, F.val b => F.val (a + b)
  | F.nan, _ => F.nan
  | _, F.nan => F.nan
  | F.pinf, F.ninf => F.nan
  | F.ninf, F.pinf => F.nan
  | F.pinf, _ => F.pinf
  | _, F.pinf => F.pinf
  | F.ninf, _ => F.ninf
  | _, F.ninf => F.ninf

/-- IEEE negation on the float model. -/
def fneg : F → F
  | F.nan => F.nan
  | F.pinf => F.ninf
  | F.ninf => F.pinf
  | F.val q => F.val (-q)

/-- IEEE subtraction on the float model. -/
def fsub (a b : F) : F := fadd a (fneg b)

/-- Multiplication of a float by a rational constant. -/
def fmulC (c : ℚ) : F → F
  | F.val q => F.val (c * q)
  | F.nan => F.nan
  | F.pinf => if 0 < c then F.pinf else if c < 0 then F.ninf else F.nan
  | F.ninf => if 0 < c then F.ninf else if c < 0 then F.pinf else F.nan

/-- Division of two ordinary values with the numpy zero-divisor semantics:
`0/0` is NaN, `x/0` is a signed infinity for `x ≠ 0`. -/
def pyDiv (a b : ℚ) : F :=
  if b = 0 then
    if a = 0 then F.nan else if 0 < a then F.pinf else F.ninf
  else F.val (a / b)

/-- IEEE division on the float model (numpy semantics for zero divisors). -/
def fdivF : F → F → F
  | F.nan, _ => F.nan
  | _, F.nan => F.nan
  | F.pinf, F.pinf => F.nan
  | F.pinf, F.ninf => F.nan
  | F.ninf, F.pinf => F.nan
  | F.ninf, F.ninf => F.nan
  | F.pinf, F.val b => if 0 ≤ b then F.pinf else F.ninf
  | F.ninf, F.val b => if 0 ≤ b then F.ninf else F.pinf
  | F.val _, F.pinf => F.val 0
  | F.val _, F.ninf => F.val 0
  | F.val a, F.val b => pyDiv a b

/-! ## Python string helpers

Python strings are modelled as `String` / `List Char`; the Unicode case
mappings of `str.upper` / `str.lower` / `str.title` are modelled with the
ASCII case mappings of `Char` (sufficient for the tokens the extractors look
at: currency markers, unit names, country names and digits). -/

/-- Characters Python treats as whitespace for `\s` and `str.strip`. -/
def isSpaceC (c : Char) : Bool :=
  c = ' ' || c = '\t' || c = '\n' || c = '\x0d' || c = '\x0b' || c = '\x0c'

/-- ASCII decimal digit test (`\d` of the extraction patterns). -/
def isDigitC (c : Char) : Bool := c.isDigit

/-- The decimal-separator class `[.,]` of the price patterns. -/
def isSepC (c : Char) : Bool := c = '.' || c = ','

/-- Model of `str.upper` (ASCII case mapping). -/
def pyUpper (s : String) : List Char := s.data.map Char.toUpper

/-- Model of `str.lower` (ASCII case mapping). -/
def pyLower (s : String) : List Char := s.data.map Char.toLower

/-- Model of `str.strip`: drop leading and trailing whitespace. -/
def pyStrip (l : List Char) : List Char :=
  ((l.dropWhile isSpaceC).reverse.dropWhile isSpaceC).reverse

/-- One step of `str.title`: upper-case a letter that follows a non-letter,
lower-case a letter that follows a letter. -/
def pyTitleGo : Bool → List Char → List Char
  | _, [] => []
  | prevAlpha, c :: cs =>
      (if c.isAlpha then (if prevAlpha then c.toLower else c.toUpper) else c)
        :: pyTitleGo c.isAlpha cs

/-- Model of `str.title` (ASCII case mapping). -/
def pyTitle (l : List Char) : List Char := pyTitleGo false l

/-- Numeric value of a list of decimal digit characters (`int(...)`). -/
def natOfDigits (l : List Char) : ℕ :=
  l.foldl (fun acc c => 10 * acc + (c.toNat - '0'.toNat)) 0

/-- True iff `needle` occurs as a contiguous substring of `hay`
(Python `needle in hay`). -/
def isSubstr (needle : List Char) : List Char → Bool
  | [] => needle.isEmpty
  | c :: t => needle.isPrefixOf (c :: t) || isSubstr needle t

/-! ## Field Extractor (`AgroDataProcessor` in `data_processor.py`)

The extraction patterns are fixed regular expressions whose character classes
are pairwise disjoint at every quantifier boundary, so Python's greedy
backtracking search is equivalent to maximal munch; each pattern is embedded as
a deterministic matcher that attempts the pattern at the start of a character
list, and `reSearch` scans start positions left to right exactly as
`re.search` does. -/

/-- Leftmost search: try the matcher at every start position, first hit wins
(`re.search` semantics). -/
def reSearch (m : List Char → Option α) : List Char → Option α
  | [] => m []
  | c :: t =>
    match m (c :: t) with
    | some r => some r
    | none => reSearch m t

/-- Pattern `(\d+[.,]\d+)\s*€` attempted at the start of the list; returns the
captured group 1 (`12,50 €`). -/
def matchNumSepNumEuro (l : List Char) : Option (List Char) :=
  let d1 := l.takeWhile isDigitC
  let r1 := l.dropWhile isDigitC
  if d1.isEmpty then none
  else
    match r1 with
    | c :: r2 =>
      if isSepC c then
        let d2 := r2.takeWhile isDigitC
        let r3 := r2.dropWhile isDigitC
        if d2.isEmpty then none
        else
          match r3.dropWhile isSpaceC with
          | '€' :: _ => some (d1 ++ c :: d2)
          | _ => none
      else none
    | [] => none

/-- Pattern `€\s*(\d+[.,]\d+)` attempted at the start of the list (`€ 12,50`). -/
def matchEuroNumSepNum (l : List Char) : Option (List Char) :=
  match l with
  | '€' :: r0 =>
    let r1 := r0.dropWhile isSpaceC
    let d1 := r1.takeWhile isDigitC
    let r2 := r1.dropWhile isDigitC
    if d1.isEmpty then none
    else
      match r2 with
      | c :: r3 =>
        if isSepC c then
          let d2 := r3.takeWhile isDigitC
          if d2.isEmpty then none else some (d1 ++ c :: d2)
        else none
      | [] => none
  | _ => none

/-- Pattern `(\d+[.,]\d+)\s*EUR` attempted at the start of the list
(`12.50 EUR`). -/
def matchNumSepNumEUR (l : List Char) : Option (List Char) :=
  let d1 := l.takeWhile isDigitC
  let r1 := l.dropWhile isDigitC
  if d1.isEmpty then none
  else
    match r1 with
    | c :: r2 =>
      if isSepC c then
        let d2 := r2.takeWhile isDigitC
        let r3 := r2.dropWhile isDigitC
        if d2.isEmpty then none
        else
          match r3.dropWhile isSpaceC with
          | 'E' :: 'U' :: 'R' :: _ => some (d1 ++ c :: d2)
          | _ => none
      else none
    | [] => none

/-- Pattern `(\d+)\s*€` attempted at the start of the list (`12 €`). -/
def matchNumEuro (l : List Char) : Option (List Char) :=
  let d1 := l.takeWhile isDigitC
  let r1 := l.dropWhile isDigitC
  if d1.isEmpty then none
  else
    match r1.dropWhile isSpaceC with
    | '€' :: _ => some d1
    | _ => none

/-- The ordered price pattern list of `clean_price_text`. -/
def pricePatterns : List (List Char → Option (List Char)) :=
  [matchNumSepNumEuro, matchEuroNumSepNum, matchNumSepNumEUR, matchNumEuro]

/-- Comma decimal separators are normalized to dots before parsing
(`price_str.replace(',', '.')`). -/
def commaToDot (c : Char) : Char := if c = ',' then '.' else c

/-- Model of Python `float(...)` on the tokens the price patterns can
produce: a digit run, optionally followed by a dot and a digit run (either
side may be empty, but not both).  Any other shape fails (the `ValueError`
branch of `clean_price_text`). -/
def pyFloatOfToken (l : List Char) : Option ℚ :=
  let ip := l.takeWhile isDigitC
  let r := l.dropWhile isDigitC
  match r with
  | [] => if ip.isEmpty then none else some (natOfDigits ip)
  | '.' :: fp =>
    if fp.all isDigitC && !(ip.isEmpty && fp.isEmpty) then
      some ((natOfDigits ip : ℚ) + (natOfDigits fp : ℚ) / (10 : ℚ) ^ fp.length)
    else none
  | _ => none

/-- The pattern loop of `clean_price_text`: first pattern whose search hits
and whose token parses wins; a parse failure falls through to the next
pattern. -/
def tryPricePatterns : List (List Char → Option (List Char)) → List Char → Option ℚ
  | [], _ => none
  | p :: ps, u =>
    match reSearch p u with
    | some cap =>
      match pyFloatOfToken (cap.map commaToDot) with
      | some v => some v
      | none => tryPricePatterns ps u
    | none => tryPricePatterns ps u

/-- `clean_price_text`: extract a price from a free-text description.
`none` input models a NaN cell (`pd.isna(text)`). -/
def clean_price_text (text : Option String) : Option ℚ :=
  match text with
  | none => none
  | some t => tryPricePatterns pricePatterns (pyUpper t)

/-- The quantity unit vocabulary of `extract_quantity`, in pattern order
(`(\d+)\s*KG`, `(\d+)\s*G`, ...). -/
def quantityUnits : List (List Char) :=
  [['K','G'], ['G'], ['L'], ['M','L'],
   ['P','I','E','C','E'], ['B','A','R','Q'],
   ['C','O','L','I','S'], ['P','L','A','T','E','A','U']]

/-- Pattern `(\d+)\s*UNIT` attempted at the start of the list. -/
def matchNumUnit (unit : List Char) (l : List Char) : Option (List Char) :=
  let d1 := l.takeWhile isDigitC
  let r1 := l.dropWhile isDigitC
  if d1.isEmpty then none
  else if unit.isPrefixOf (r1.dropWhile isSpaceC) then some d1 else none

/-- The pattern loop of `extract_quantity`: first unit pattern that matches
wins, yielding the integer quantity and the unit token. -/
def tryQuantityUnits : List (List Char) → List Char → Option ℚ × Option (List Char)
  | [], _ => (none, none)
  | u :: us, t =>
    match reSearch (matchNumUnit u) t with
    | some d => (some (natOfDigits d : ℚ), some u)
    | none => tryQuantityUnits us t

/-- `extract_quantity`: extract quantity and unit from a description. -/
def extract_quantity (text : Option String) : Option ℚ × Option (List Char) :=
  match text with
  | none => (none, none)
  | some t => tryQuantityUnits quantityUnits (pyUpper t)

/-- The country gazetteer of `extract_origin`, in list order. -/
def originCountries : List String :=
  ["FRANCE", "ESPAGNE", "MAROC", "ITALIE", "BELGIQUE", "PAYS-BAS",
   "TUNISIE", "UE", "U.E.", "ALLEMAGNE", "PORTUGAL", "GRÈCE"]

/-- First gazetteer country that occurs in the list (gazetteer order, not
textual order). -/
def firstCountryIn (t : List Char) : List String → Option String
  | [] => none
  | c :: cs => if isSubstr c.data t then some c else firstCountryIn t cs

/-- `extract_origin`: substring match against the fixed country gazetteer. -/
def extract_origin (text : Option String) : Option String :=
  match text with
  | none => none
  | some t => firstCountryIn (pyUpper t) originCountries

/-- Pattern `CAT\.\s*(I|II|III|1|2|3)` attempted at the start of the list;
returns `group(0)`.  Python alternation is first-match, so the alternative
`I` fires before `II` and `III`. -/
def matchCatGrade (l : List Char) : Option (List Char) :=
  match l with
  | 'C' :: 'A' :: 'T' :: '.' :: r0 =>
    let ws := r0.takeWhile isSpaceC
    match r0.dropWhile isSpaceC with
    | 'I' :: _ => some (['C','A','T','.'] ++ ws ++ ['I'])
    | '1' :: _ => some (['C','A','T','.'] ++ ws ++ ['1'])
    | '2' :: _ => some (['C','A','T','.'] ++ ws ++ ['2'])
    | '3' :: _ => some (['C','A','T','.'] ++ ws ++ ['3'])
    | _ => none
  | _ => none

/-- Literal pattern attempted at the start of the list (`EXTRA`, `BIO`);
returns `group(0)`. -/
def matchLit (lit : List Char) (l : List Char) : Option (List Char) :=
  if lit.isPrefixOf l then some lit else none

/-- Pattern `(\d{2})-(\d{2})MM` (optionally with whitespace before `MM`)
attempted at the start of the list; returns `group(0)`. -/
def matchCaliber (allowWs : Bool) (l : List Char) : Option (List Char) :=
  match l with
  | a :: b :: '-' :: c :: d :: r0 =>
    if isDigitC a && isDigitC b && isDigitC c && isDigitC d then
      let ws := if allowWs then r0.takeWhile isSpaceC else []
      let r1 := if allowWs then r0.dropWhile isSpaceC else r0
      match r1 with
      | 'M' :: 'M' :: _ => some ([a, b, '-', c, d] ++ ws ++ ['M','M'])
      | _ => none
    else none
  | _ => none

/-- The ordered quality pattern list of `extract_quality`. -/
def qualityPatterns : List (List Char → Option (List Char)) :=
  [matchCatGrade, matchLit ['E','X','T','R','A'], matchLit ['B','I','O'],
   matchCaliber false, matchCaliber true]

/-- The pattern loop of `extract_quality`: first pattern that matches wins. -/
def tryQualityPatterns : List (List Char → Option (List Char)) → List Char → Option (List Char)
  | [], _ => none
  | p :: ps, t =>
    match reSearch p t with
    | some g => some g
    | none => tryQualityPatterns ps t

/-- `extract_quality`: extract the quality/grade label from a description. -/
def extract_quality (text : Option String) : Option (List Char) :=
  match text with
  | none => none
  | some t => tryQualityPatterns qualityPatterns (pyUpper t)

/-! ## Record Normalizer (`clean_data` in `data_processor.py`) -/

/-- A parsed timestamp: a total ordering key plus the calendar month used by
the feature deriver (`.dt.month`). -/
structure Date where
  ord : ℤ
  month : ℕ
deriving DecidableEq, Repr

/-- A raw scraped record (one row of the input DataFrame). -/
structure RawRec where
  product : String
  date : String
  market : String
  description : String
  source_url : String
deriving DecidableEq, Repr

/-- A normalized record: the raw columns plus the columns `clean_data`
computes.  The `date` column has been overwritten by its parsed form. -/
structure CleanRec where
  product : String
  market : String
  description : String
  source_url : String
  date : Option Date
  price : Option ℚ
  quantity : Option ℚ
  unit : Option (List Char)
  origin : Option String
  quality : Option (List Char)
  product_clean : String
  market_clean : String
  unit_price : Option ℚ
deriving DecidableEq, Repr

/-- The unit-price rule of `clean_data`:
`price / quantity if notna(price) and notna(quantity) and quantity > 0 else price`. -/
def computeUnitPrice (price quantity : Option ℚ) : Option ℚ :=
  match price, quantity with
  | some p, some q => if 0 < q then some (p / q) else some p
  | p, _ => p

/-- Normalization of a single row: field extraction, date parsing
(`pd.to_datetime(..., errors='coerce')`, abstracted as `parseDate`), display
name cleaning and the unit price. -/
def normalizeRecord (parseDate : String → Option Date) (r : RawRec) : CleanRec :=
  let price := clean_price_text (some r.description)
  let qu := extract_quantity (some r.description)
  { product := r.product
    market := r.market
    description := r.description
    source_url := r.source_url
    date := parseDate r.date
    price := price
    quantity := qu.1
    unit := qu.2
    origin := extract_origin (some r.description)
    quality := extract_quality (some r.description)
    product_clean := String.mk (pyTitle (pyStrip r.product.data))
    market_clean := String.mk (pyTitle (pyStrip r.market.data))
    unit_price := computeUnitPrice price qu.1 }

/-- Helper for `drop_duplicates`: keep the elements not seen before, in
order. -/
def dropDupAcc [DecidableEq α] : List α → List α → List α
  | _, [] => []
  | seen, x :: xs =>
    if x ∈ seen then dropDupAcc seen xs else x :: dropDupAcc (x :: seen) xs

/-- `df.drop_duplicates()`: keep the first occurrence of every row. -/
def dropDuplicates [DecidableEq α] (l : List α) : List α := dropDupAcc [] l

/-- `clean_data` on a batch of raw rows: normalize each row, then drop
duplicate rows. -/
def clean_data (parseDate : String → Option Date) (rows : List RawRec) : List CleanRec :=
  dropDuplicates (rows.map (normalizeRecord parseDate))

/-- `clean_data` run on an already-normalized batch: every derived column is
recomputed from the unchanged raw columns, and `pd.to_datetime` on an
already-parsed datetime column is the identity. -/
def renormalizeRecord (r : CleanRec) : CleanRec :=
  let price := clean_price_text (some r.description)
  let qu := extract_quantity (some r.description)
  { product := r.product
    market := r.market
    description := r.description
    source_url := r.source_url
    date := r.date
    price := price
    quantity := qu.1
    unit := qu.2
    origin := extract_origin (some r.description)
    quality := extract_quality (some r.description)
    product_clean := String.mk (pyTitle (pyStrip r.product.data))
    market_clean := String.mk (pyTitle (pyStrip r.market.data))
    unit_price := computeUnitPrice price qu.1 }

/-- `clean_data` applied to its own output. -/
def clean_data_again (rows : List CleanRec) : List CleanRec :=
  dropDuplicates (rows.map renormalizeRecord)

/-! ## Feature Deriver (`add_derived_features` in `data_processor.py`) -/

/-- `get_season`: the month of a record with a null date is NaN, and NaN
membership tests are false, so the fall-through branch fires.  The argument
models the possibly-NaN `month` column. -/
def get_season (month : Option ℕ) : String :=
  if month = some 12 ∨ month = some 1 ∨ month = some 2 then "Hiver"
  else if month = some 3 ∨ month = some 4 ∨ month = some 5 then "Printemps"
  else if month = some 6 ∨ month = some 7 ∨ month = some 8 then "Été"
  else "Automne"

/-- The product taxonomy of `categorize_product`, in iteration order. -/
def productCategories : List (String × List String) :=
  [("Légumes", ["tomate", "carotte", "salade", "chou", "poivre", "oignon", "ail"]),
   ("Fruits", ["pomme", "poire", "orange", "citron", "fraise", "cerise"]),
   ("Viande", ["bœuf", "porc", "veau", "agneau", "poulet", "dinde"]),
   ("Produits laitiers", ["beurre", "fromage", "œuf", "lait"])]

/-- First taxonomy category one of whose keywords occurs in the lowered
product name. -/
def firstCategoryIn (t : List Char) : List (String × List String) → String
  | [] => "Autre"
  | (cat, kws) :: rest =>
    if kws.any (fun kw => isSubstr kw.data t) then cat else firstCategoryIn t rest

/-- `categorize_product`: keyword classification over the fixed taxonomy. -/
def categorize_product (name : String) : String :=
  firstCategoryIn (pyLower name) productCategories

/-- The `price_category` column value: a `pd.cut` band label, the NaN a
`pd.cut` result carries for values outside every bin (including NaN prices),
or the literal string the all-null branch assigns. -/
inductive PriceCat where
  | cat (label : String)
  | catNaN
  | nonDispo
deriving DecidableEq, Repr

/-- `pd.cut(price, bins=[0, 2, 5, 10, 20, inf], labels=[...])`: left-open,
right-closed bins; prices outside `(0, inf)` and NaN prices fall in no bin
and get a NaN category. -/
def cutPrice (p : Option ℚ) : PriceCat :=
  match p with
  | none => PriceCat.catNaN
  | some q =>
    if 0 < q ∧ q ≤ 2 then PriceCat.cat "<2€"
    else if 2 < q ∧ q ≤ 5 then PriceCat.cat "2-5€"
    else if 5 < q ∧ q ≤ 10 then PriceCat.cat "5-10€"
    else if 10 < q ∧ q ≤ 20 then PriceCat.cat "10-20€"
    else if 20 < q then PriceCat.cat ">20€"
    else PriceCat.catNaN

/-- The five `pd.cut` band labels. -/
def bandLabels : List String := ["<2€", "2-5€", "5-10€", "10-20€", ">20€"]

/-- An enriched record: the normalized columns plus the derived features. -/
structure EnrichedRec extends CleanRec where
  month : Option ℕ
  season : String
  product_category : String
  price_category : PriceCat
deriving DecidableEq, Repr

/-- `add_derived_features`: calendar features, the product category and the
price band.  The batch-level guard `df['price'].notna().any()` decides
between `pd.cut` banding and the constant `'Non disponible'` column; the
inner `valid_prices.empty` branch is unreachable when the guard holds. -/
def add_derived_features (rs : List CleanRec) : List EnrichedRec :=
  let anyPrice := rs.any (fun r => r.price.isSome)
  rs.map (fun r =>
    { r with
      month := r.date.map (fun d => d.month)
      season := get_season (r.date.map (fun d => d.month))
      product_category := categorize_product r.product_clean
      price_category := if anyPrice then cutPrice r.price else PriceCat.nonDispo })

/-! ## Analytics Engine

The analyzers consume an enriched table; the columns they read are modelled by
`Obs`.  A NaN cell of the `price` column is `none`. -/

/-- One row of the enriched table as the analyzers see it. -/
structure Obs where
  product_clean : String
  market_clean : String
  origin : Option String
  date : Date
  price : Option ℚ
deriving DecidableEq, Repr

/-- `Series.unique()`: distinct values in first-appearance order. -/
def uniqueVals (l : List String) : List String := dropDuplicates l

/-- Stable insertion into a date-sorted list. -/
def insertByDate (o : Obs) : List Obs → List Obs
  | [] => [o]
  | x :: xs => if o.date.ord ≤ x.date.ord then o :: x :: xs else x :: insertByDate o xs

/-- `sort_values('date')`: sort rows by date (tie order is a modelling
choice; pandas' default sort leaves it unspecified). -/
def sortByDate (l : List Obs) : List Obs := l.foldr insertByDate []

/-- Sum of a rational list. -/
def qsum (l : List ℚ) : ℚ := l.foldr (· + ·) 0

/-- Arithmetic mean of a rational list (callers guard against emptiness). -/
def qmean (l : List ℚ) : ℚ := qsum l / l.length

/-- Sum of squared deviations from the mean (the numerator every variance
notion shares); it is `0` exactly when the list is constant or empty. -/
def qdevsq (l : List ℚ) : ℚ := qsum (l.map (fun x => (x - qmean l) ^ 2))

/-! ### Sentiment Scorer (`create_market_sentiment_analyzer`) -/

/-- `Series.mean()` (skipna, over the already NaN-filtered values): NaN when
no value remains. -/
def pmeanF (l : List ℚ) : F :=
  if l.isEmpty then F.nan else F.val (qmean l)

/-- `Series.std()` (sample standard deviation, `ddof=1`): NaN when fewer than
two values remain; otherwise `sqrt` of the sample variance.  The square root
is irrational, so it is an explicit parameter `sqrtQ` of the analyzer. -/
def sampleStd (sqrtQ : ℚ → ℚ) (l : List ℚ) : F :=
  if l.length ≤ 1 then F.nan
  else F.val (sqrtQ (qdevsq l / (l.length - 1 : ℚ)))

/-- Ordinary-least-squares slope of values against their index
(`np.polyfit(arange(n), ys, 1)[0]`), exact over `ℚ`. -/
def olsSlope (ys : List ℚ) : ℚ :=
  let n : ℚ := ys.length
  let xbar : ℚ := (n - 1) / 2
  let ybar : ℚ := qsum ys / n
  let num := qsum (ys.enum.map (fun z => ((z.1 : ℚ) - xbar) * (z.2 - ybar)))
  let den := qsum ((List.range ys.length).map (fun i => ((i : ℚ) - xbar) ^ 2))
  num / den

/-- `calculate_price_trend`: `0` below two observations, else the normalized
regression slope `slope / mean * 100`.  The raw price array (`.values`) keeps
NaN cells, which poison `polyfit` and `np.mean`; the model returns NaN in
that case. -/
def calculate_price_trend (pdata : List Obs) : F :=
  if pdata.length < 2 then F.val 0
  else
    let ps := (sortByDate pdata).map (fun o => o.price)
    if ps.any (fun p => p.isNone) then F.nan
    else
      let vs := ps.reduceOption
      fmulC 100 (fdivF (F.val (olsSlope vs)) (F.val (qmean vs)))

/-- `get_sentiment_recommendation`, applied to the clamped score. -/
def get_sentiment_recommendation (score : F) : String :=
  if fge score (F.val 70) then "🟢 Fort - Achat recommandé"
  else if fge score (F.val 50) then "🟡 Modéré - Surveillance"
  else if fge score (F.val 30) then "🟠 Faible - Prudence"
  else "🔴 Très faible - Éviter"

/-- One row of the sentiment result table. -/
structure SentimentRow where
  product : String
  sentiment_score : F
  volatility : F
  trend : F
  stability : ℚ
  recommendation : String
deriving DecidableEq, Repr

/-- The raw composite score
`50 + price_trend * 10 - price_volatility * 20 + volume_stability * 5`. -/
def rawSentimentScore (trend vol : F) (stab : ℚ) : F :=
  fadd (fsub (fadd (F.val 50) (fmulC 10 trend)) (fmulC 20 vol)) (F.val (stab * 5))

/-- `max(0, min(100, score))` with Python `min`/`max` semantics. -/
def clampScore (s : F) : F := pymax (F.val 0) (pymin (F.val 100) s)

/-- The sentiment row for one product group. -/
def sentimentRowFor (sqrtQ : ℚ → ℚ) (df : List Obs) (p : String) : SentimentRow :=
  let pdata := df.filter (fun o => o.product_clean == p)
  let priceVals := pdata.filterMap (fun o => o.price)
  let vol := fdivF (sampleStd sqrtQ priceVals) (pmeanF priceVals)
  let trend := calculate_price_trend pdata
  let stab : ℚ := (pdata.length : ℚ) / 30
  let score := clampScore (rawSentimentScore trend vol stab)
  { product := p
    sentiment_score := score
    volatility := vol
    trend := trend
    stability := stab
    recommendation := get_sentiment_recommendation score }

/-- `create_market_sentiment_analyzer`: one row per unique product; no
minimum-observation guard and no NaN guard on the volatility. -/
def create_market_sentiment_analyzer (sqrtQ : ℚ → ℚ) (df : List Obs) : List SentimentRow :=
  (uniqueVals (df.map (fun o => o.product_clean))).map (sentimentRowFor sqrtQ df)

/-! ### Anomaly Detector (`create_price_anomaly_detector`)

The Isolation Forest fit is floating-point, randomized and not shallowly
embeddable; the model takes the fitted selection (the rows labelled `-1`) as
a function parameter `detect` and keeps the surrounding control flow — in
particular the `len(product_data) < 10: continue` guard — exact. -/

/-- One row of the anomaly result table (the columns the guard determines). -/
structure AnomalyRow where
  product : String
  date : Date
  price : Option ℚ
  market : String
deriving DecidableEq, Repr

/-- `create_price_anomaly_detector`: per unique product, skip groups below 10
observations, otherwise report the rows `detect` flags. -/
def create_price_anomaly_detector (detect : List Obs → List Obs) (df : List Obs) :
    List AnomalyRow :=
  (uniqueVals (df.map (fun o => o.product_clean))).flatMap (fun p =>
    let pdata := df.filter (fun o => o.product_clean == p)
    if pdata.length < 10 then []
    else (detect pdata).map (fun o =>
      { product := p, date := o.date, price := o.price, market := o.market_clean }))

/-! ### Elasticity Estimator (`create_price_elasticity_analyzer`) -/

/-- One step of `np.diff(prices) / prices[:-1]` on the raw price array:
a NaN operand yields NaN, a zero previous price yields the numpy
zero-divisor result. -/
def elemDiffOver (prev next : Option ℚ) : F :=
  match prev, next with
  | some a, some b => pyDiv (b - a) a
  | _, _ => F.nan

/-- `np.diff(prices) / prices[:-1]` over the whole series. -/
def priceChanges (ps : List (Option ℚ)) : List F :=
  (ps.zip ps.tail).map (fun z => elemDiffOver z.1 z.2)

/-- Extract the rational of an ordinary float value. -/
def forgetF : F → Option ℚ
  | F.val q => some q
  | _ => none

/-- True iff `np.corrcoef(x, y)[0, 1]` is NaN: some operand is NaN or
infinite, or one of the two series has zero variance (which covers series
shorter than two). -/
def corrIsNaN (x y : List F) : Bool :=
  x.any (fun v => !v.isVal) || y.any (fun v => !v.isVal) ||
    qdevsq (x.filterMap forgetF) == 0 || qdevsq (y.filterMap forgetF) == 0

/-- `get_elasticity_category` over the absolute elasticity. -/
def get_elasticity_category (e : ℚ) : String :=
  if e > 0.8 then "Très élastique"
  else if e > 0.5 then "Élastique"
  else if e > 0.2 then "Peu élastique"
  else "Inélastique"

/-- `get_price_sensitivity` over the absolute elasticity. -/
def get_price_sensitivity (e : ℚ) : String :=
  if e > 0.7 then "🔴 Très sensible"
  else if e > 0.4 then "🟡 Sensible"
  else "🟢 Peu sensible"

/-- One row of the elasticity result table. -/
structure ElastRow where
  product : String
  elasticity : ℚ
  elasticity_category : String
  price_sensitivity : String
deriving DecidableEq, Repr

/-- The elasticity value for one product group: the lag-1 autocorrelation of
the percentage price changes, with a NaN correlation replaced by `0`.  The
defined-case Pearson value involves a square root and is the parameter
`rval`. -/
def elasticityValue (rval : List F → List F → ℚ) (pdata : List Obs) : ℚ :=
  let changes := priceChanges (pdata.map (fun o => o.price))
  let x := changes.drop 1
  let y := changes.dropLast
  if corrIsNaN x y then 0 else rval x y

/-- `create_price_elasticity_analyzer`: per unique product, skip groups below
5 observations, otherwise one row with the absolute elasticity and its
bands. -/
def create_price_elasticity_analyzer (rval : List F → List F → ℚ) (df : List Obs) :
    List ElastRow :=
  (uniqueVals (df.map (fun o => o.product_clean))).flatMap (fun p =>
    let pdata := sortByDate (df.filter (fun o => o.product_clean == p))
    if pdata.length < 5 then []
    else
      let e := |elasticityValue rval pdata|
      [{ product := p
         elasticity := e
         elasticity_category := get_elasticity_category e
         price_sensitivity := get_price_sensitivity e }])

/-! ### Price Forecaster (`price_prediction_model` in `interactive_features.py`)

The random-forest fit is not shallowly embeddable; the model takes the fitted
result as a function parameter `fit` over the filtered rows and keeps the
filter logic and the minimum-row guard exact.  The whole body runs inside
`try/except`, so the function returns a `(result, error)` pair and never
raises; the guard's branch is reached before any fallible training step. -/

/-- Python truthiness of an optional-string filter argument (`if product:`):
`None` and the empty string disable the filter. -/
def pyTruthy : Option String → Bool
  | none => false
  | some s => !(s == "")

/-- The successive product/market/origin filters of `price_prediction_model`.
Comparing the nullable `origin` column against a string is false on NaN
cells. -/
def filteredRows (df : List Obs) (product market origin : Option String) : List Obs :=
  let f1 := if pyTruthy product then df.filter (fun o => some o.product_clean == product) else df
  let f2 := if pyTruthy market then f1.filter (fun o => some o.market_clean == market) else f1
  if pyTruthy origin then f2.filter (fun o => o.origin == origin) else f2

/-- `price_prediction_model`: filter, then either the explicit insufficient
data error or the fitted model result. -/
def price_prediction_model {M : Type} (fit : List Obs → M) (df : List Obs)
    (product market origin : Option String) : Option M × Option String :=
  let rows := filteredRows df product market origin
  if rows.length < 10 then (none, some "Pas assez de données pour l\x27entraînement")
  else (some (fit rows), none)

/-! ### Alert Generator (`create_alert_system` in `interactive_features.py`) -/

/-- One alert of the alert list.  Variation alerts carry the rounded
percentage change; outlier alerts do not have that key. -/
structure Alert where
  atype : String
  date : Date
  prix : Option ℚ
  variation : Option F
  marche : String
deriving DecidableEq, Repr

/-- Round-half-to-even to an integer (Python `round`). -/
def roundHalfEven (x : ℚ) : ℤ :=
  let f := ⌊x⌋
  let r := x - f
  if r < 1 / 2 then f else if 1 / 2 < r then f + 1 else if f % 2 = 0 then f else f + 1

/-- Python `round(x, 2)`; NaN and infinities round to themselves. -/
def fround2 : F → F
  | F.val q => F.val ((roundHalfEven (q * 100) : ℚ) / 100)
  | x => x

/-- Scaling of a percentage change by `* 100`. -/
def fmul100 : F → F := fmulC 100

/-- `Series.pct_change() * 100` over the price column: the first entry is
NaN, then `(next - prev) / prev` with numpy zero-divisor and NaN
propagation semantics.  (No forward-filling of NaN prices is modelled —
older pandas releases pad by default; the two semantics agree on series
whose prices are all present, which is the case the properties below
quantify over.) -/
def pctList (ps : List (Option ℚ)) : List F :=
  F.nan :: (ps.zip ps.tail).map (fun z => fmul100 (elemDiffOver z.1 z.2))

/-- `abs(pct) > threshold` with Python float comparison semantics: false for
a NaN change, true for an infinite one. -/
def fAbsGt (v : F) (t : ℚ) : Bool :=
  match v with
  | F.nan => false
  | F.pinf => true
  | F.ninf => true
  | F.val q => t < |q|

/-- The product rows the alert system works on, date-sorted. -/
def alertPdata (df : List Obs) (p : String) : List Obs :=
  sortByDate (df.filter (fun o => o.product_clean == p))

/-- The significant-variation alert built from a row and its percentage
change. -/
def mkVarAlert (z : Obs × F) : Alert :=
  { atype := "variation_significative"
    date := z.1.date
    prix := z.1.price
    variation := some (fround2 z.2)
    marche := z.1.market_clean }

/-- The significant-variation alerts: rows whose absolute percentage change
exceeds the threshold. -/
def varAlertList (df : List Obs) (p : String) (t : ℚ) : List Alert :=
  let pdata := alertPdata df p
  ((pdata.zip (pctList (pdata.map (fun o => o.price)))).filter
      (fun z => fAbsGt z.2 t)).map mkVarAlert

/-- Sorted insertion of a rational into an ascending list. -/
def insertQ (q : ℚ) : List ℚ → List ℚ
  | [] => [q]
  | x :: xs => if q ≤ x then q :: x :: xs else x :: insertQ q xs

/-- Ascending sort of a rational list. -/
def sortQ (l : List ℚ) : List ℚ := l.foldr insertQ []

/-- `Series.quantile(p)` with the default linear interpolation, over the
non-NaN values (callers guard against emptiness). -/
def quantileQ (vals : List ℚ) (p : ℚ) : ℚ :=
  let s := sortQ vals
  let h : ℚ := ((s.length : ℚ) - 1) * p
  let lo := ⌊h⌋.toNat
  match s.get? lo, s.get? (lo + 1) with
  | some a, some b => a + (h - lo) * (b - a)
  | some a, none => a
  | none, _ => 0

/-- The Tukey-fence outlier alerts (`1.5 * IQR` rule): price above the upper
fence gives `prix_eleve`, below the lower fence `prix_bas`; NaN prices
compare false against both fences and are never flagged.  With no non-NaN
price both quantiles are NaN and no row is flagged. -/
def outlierAlertList (df : List Obs) (p : String) : List Alert :=
  let pdata := alertPdata df p
  let vals := pdata.filterMap (fun o => o.price)
  if vals.isEmpty then []
  else
    let q75 := quantileQ vals (3 / 4)
    let q25 := quantileQ vals (1 / 4)
    let iqr := q75 - q25
    (pdata.filter (fun o =>
        match o.price with
        | some q => decide (q75 + 3 / 2 * iqr < q) || decide (q < q25 - 3 / 2 * iqr)
        | none => false)).map (fun o =>
      { atype :=
          match o.price with
          | some q => if q75 + 3 / 2 * iqr < q then "prix_eleve" else "prix_bas"
          | none => "prix_bas"
        date := o.date
        prix := o.price
        variation := none
        marche := o.market_clean })

/-- `create_alert_system`: no alerts below two observations, otherwise the
significant-variation alerts followed by the outlier alerts. -/
def create_alert_system (df : List Obs) (p : String) (t : ℚ) : List Alert :=
  if (alertPdata df p).length < 2 then []
  else varAlertList df p t ++ outlierAlertList df p

/-- The significant-variation alerts among the produced alerts. -/
def variationAlerts (df : List Obs) (p : String) (t : ℚ) : List Alert :=
  (create_alert_system df p t).filter (fun a => a.atype == "variation_significative")

/-! ## Concrete tables used to instantiate the verified properties -/

/-- An observation of a product on a given day at market `"M"`. -/
def mkObs (p : String) (d : ℤ) (pr : Option ℚ) : Obs :=
  { product_clean := p, market_clean := "M", origin := none,
    date := { ord := d, month := 1 }, price := pr }

/-- One product with a single priced observation. -/
def exObsSingle : List Obs := [mkObs "X" 0 (some 5)]

/-- The §8 alert scenario: prices 10, 10, 10, 50 observed in date order. -/
def exObsAlerts : List Obs :=
  [mkObs "T" 0 (some 10), mkObs "T" 1 (some 10), mkObs "T" 2 (some 10), mkObs "T" 3 (some 50)]

/-- A constant two-observation series. -/
def exObsConstant : List Obs := [mkObs "A" 0 (some 10), mkObs "A" 1 (some 10)]

/-- A constant five-observation series. -/
def exObsElastic : List Obs := (List.range 5).map (fun i => mkObs "E" i (some 3))

/-- Nine observations of a single product. -/
def exObsNine : List Obs := (List.range 9).map (fun i => mkObs "P" i (some 1))

/-- A normalized record with the given date and price. -/
def mkClean (d : Option Date) (pr : Option ℚ) : CleanRec :=
  { product := "p", market := "m", description := "d", source_url := "u",
    date := d, price := pr, quantity := none, unit := none, origin := none,
    quality := none, product_clean := "P", market_clean := "M",
    unit_price := pr }

/-- A batch with one priced and one price-less record. -/
def exCleanMixed : List CleanRec :=
  [mkClean (some { ord := 0, month := 5 }) (some 5), mkClean none none]

/-- A product whose two observations are both priced at zero (zero mean). -/
def exObsZeroMean : List Obs := [mkObs "Z" 0 (some 0), mkObs "Z" 1 (some 0)]

/-- The sentiment row the analyzer produces for `exObsSingle`. -/
def exSentimentRow : SentimentRow :=
  { product := "X", sentiment_score := F.val 100, volatility := F.nan,
    trend := F.val 0, stability := 1 / 30,
    recommendation := "🟢 Fort - Achat recommandé" }

/-! ## Library lemmas about the embedded primitives -/

theorem mem_dropDupAcc [DecidableEq α] (a : α) :
    ∀ (l seen : List α), a ∈ dropDupAcc seen l ↔ a ∈ l ∧ a ∉ seen := by
  intro l
  induction l with
  | nil =>
    intro seen
    simp [dropDupAcc]
  | cons x xs ih =>
    intro seen
    unfold dropDupAcc
    split
    · rename_i hx
      rw [ih seen]
      constructor
      · rintro ⟨h1, h2⟩
        exact ⟨List.mem_cons_of_mem _ h1, h2⟩
      · rintro ⟨hax, h2⟩
        rcases List.mem_cons.mp hax with rfl | h1
        · exact absurd hx h2
        · exact ⟨h1, h2⟩
    · rename_i hx
      constructor
      · intro h
        rcases List.mem_cons.mp h with rfl | h1
        · exact ⟨List.mem_cons_self _ _, hx⟩
        · rcases (ih (x :: seen)).mp h1 with ⟨hxs2, hns⟩
          exact ⟨List.mem_cons_of_mem _ hxs2,
            fun hseen => hns (List.mem_cons_of_mem _ hseen)⟩
      · rintro ⟨hax, h2⟩
        by_cases heq : a = x
        · exact heq ▸ List.mem_cons_self _ _
        · rcases List.mem_cons.mp hax with rfl | h1
          · exact absurd rfl heq
          · refine List.mem_cons_of_mem _ ((ih (x :: seen)).mpr ⟨h1, fun hs => ?_⟩)
            rcases List.mem_cons.mp hs with h | h
            · exact heq h
            · exact h2 h

theorem nodup_dropDupAcc [DecidableEq α] :
    ∀ (l seen : List α), (dropDupAcc seen l).Nodup := by
  intro l
  induction l with
  | nil =>
    intro seen
    simp [dropDupAcc]
  | cons x xs ih =>
    intro seen
    unfold dropDupAcc
    split
    · exact ih seen
    · refine List.nodup_cons.mpr ⟨fun hmem => ?_, ih (x :: seen)⟩
      rcases (mem_dropDupAcc x xs (x :: seen)).mp hmem with ⟨_, hns⟩
      exact hns (List.mem_cons_self x seen)

theorem dropDupAcc_eq_self [DecidableEq α] :
    ∀ (l seen : List α), l.Nodup → (∀ a ∈ l, a ∉ seen) → dropDupAcc seen l = l := by
  intro l
  induction l with
  | nil =>
    intro seen _ _
    rfl
  | cons x xs ih =>
    intro seen hnd hni
    rcases List.nodup_cons.mp hnd with ⟨hx, hxs⟩
    unfold dropDupAcc
    rw [if_neg (hni x (List.mem_cons_self x xs))]
    congr 1
    apply ih (x :: seen) hxs
    intro a ha hmem
    rcases List.mem_cons.mp hmem with rfl | h
    · exact hx ha
    · exact hni a (List.mem_cons_of_mem x ha) h

theorem mem_dropDuplicates [DecidableEq α] (a : α) (l : List α) :
    a ∈ dropDuplicates l ↔ a ∈ l := by
  unfold dropDuplicates
  rw [mem_dropDupAcc]
  simp

theorem nodup_dropDuplicates [DecidableEq α] (l : List α) :
    (dropDuplicates l).Nodup := nodup_dropDupAcc l []

theorem dropDuplicates_eq_self [DecidableEq α] (l : List α) (h : l.Nodup) :
    dropDuplicates l = l := dropDupAcc_eq_self l [] h (by simp)

theorem dropDuplicates_idem [DecidableEq α] (l : List α) :
    dropDuplicates (dropDuplicates l) = dropDuplicates l :=
  dropDuplicates_eq_self _ (nodup_dropDuplicates l)

theorem insertByDate_perm (o : Obs) (l : List Obs) :
    List.Perm (insertByDate o l) (o :: l) := by
  induction l with
  | nil => exact List.Perm.refl _
  | cons x xs ih =>
    rw [insertByDate]
    split
    · exact List.Perm.refl _
    · exact (ih.cons x).trans (List.Perm.swap o x xs)

theorem sortByDate_perm (l : List Obs) : List.Perm (sortByDate l) l := by
  induction l with
  | nil => exact List.Perm.refl _
  | cons x xs ih =>
    have : sortByDate (x :: xs) = insertByDate x (sortByDate xs) := rfl
    rw [this]
    exact (insertByDate_perm x (sortByDate xs)).trans (ih.cons x)

theorem mem_sortByDate {o : Obs} {l : List Obs} :
    o ∈ sortByDate l ↔ o ∈ l := (sortByDate_perm l).mem_iff

theorem length_sortByDate (l : List Obs) :
    (sortByDate l).length = l.length := (sortByDate_perm l).length_eq

theorem qsum_eq_zero {l : List ℚ} (h : ∀ q ∈ l, q = 0) : qsum l = 0 := by
  induction l with
  | nil => rfl
  | cons x xs ih =>
    have hx := h x (List.mem_cons_self x xs)
    have : qsum (x :: xs) = x + qsum xs := rfl
    rw [this, hx, ih (fun q hq => h q (List.mem_cons_of_mem x hq)), add_zero]

theorem qdevsq_eq_zero {l : List ℚ} (h : ∀ q ∈ l, q = 0) : qdevsq l = 0 := by
  unfold qdevsq qmean
  rw [qsum_eq_zero h, zero_div]
  apply qsum_eq_zero
  intro q hq
  rcases List.mem_map.mp hq with ⟨x, hx, rfl⟩
  rw [h x hx]
  ring

/-! ## Verified properties -/

/-- C1: for every normalized record, `unit_price` is defined iff `price` is
defined; when the quantity is null or not greater than 0 the unit price is
exactly the price; and when price and quantity are defined with a positive
quantity, `unit_price = price / quantity`, so the division is never performed
with a zero divisor. -/
theorem unit_price_spec (p q : Option ℚ) :
    ((computeUnitPrice p q).isSome = p.isSome)
    ∧ ((q = none ∨ ∃ qv, q = some qv ∧ qv ≤ 0) → computeUnitPrice p q = p)
    ∧ (∀ pv qv, p = some pv → q = some qv → 0 < qv →
        computeUnitPrice p q = some (pv / qv)) := by
  refine ⟨?_, ?_, ?_⟩
  · cases p <;> cases q <;>
      first
        | rfl
        | (simp only [computeUnitPrice]; split <;> rfl)
  · rintro (rfl | ⟨qv, rfl, hqv⟩)
    · cases p <;> rfl
    · cases p with
      | none => rfl
      | some pv =>
        simp only [computeUnitPrice]
        rw [if_neg (not_lt.mpr hqv)]
  · rintro pv qv rfl rfl hqv
    simp only [computeUnitPrice]
    rw [if_pos hqv]

theorem unit_price_spec_witness :
    (0 : ℚ) < 2 ∧ computeUnitPrice (some 6) (some 2) = some 3 := by
  refine ⟨by norm_num, ?_⟩
  have h := (unit_price_spec (some 6) (some 2)).2.2 6 2 rfl rfl (by norm_num)
  norm_num at h
  exact h

/-- C5: whenever the product/market/origin filters leave fewer than 10 rows,
the price forecaster returns a null model paired with the explicit
caller-visible error message (and, being total, raises no exception). -/
theorem forecaster_insufficient_data {M : Type} (fit : List Obs → M)
    (df : List Obs) (product market origin : Option String)
    (h : (filteredRows df product market origin).length < 10) :
    price_prediction_model fit df product market origin
      = (none, some "Pas assez de données pour l\x27entraînement") := by
  unfold price_prediction_model
  rw [if_pos h]

theorem forecaster_insufficient_data_witness :
    (filteredRows [] none none none).length < 10
    ∧ price_prediction_model (fun _ => (0 : ℕ)) [] none none none
        = (none, some "Pas assez de données pour l\x27entraînement") :=
  ⟨by decide, forecaster_insufficient_data (fun _ => (0 : ℕ)) [] none none none (by decide)⟩

/-- C10: a record whose date failed to parse still gets a season, and that
season is `'Automne'`: the fall-through branch of `get_season` returns
Autumn for every month value outside the three listed sets, including the
NaN month of a dateless record. -/
theorem season_null_date_automne :
    (∀ rs : List CleanRec, ∀ e ∈ add_derived_features rs,
        e.date = none → e.season = "Automne")
    ∧ (∀ m : Option ℕ,
        ¬(m = some 12 ∨ m = some 1 ∨ m = some 2) →
        ¬(m = some 3 ∨ m = some 4 ∨ m = some 5) →
        ¬(m = some 6 ∨ m = some 7 ∨ m = some 8) →
        get_season m = "Automne") := by
  constructor
  · intro rs e he hd
    rcases List.mem_map.mp he with ⟨r, _, rfl⟩
    simp only at hd ⊢
    rw [hd]
    rfl
  · intro m h1 h2 h3
    unfold get_season
    rw [if_neg h1, if_neg h2, if_neg h3]

theorem season_null_date_automne_witness :
    ({ toCleanRec := mkClean none none, month := none, season := "Automne",
       product_category := "Autre", price_category := PriceCat.nonDispo } : EnrichedRec).season
      = "Automne" :=
  season_null_date_automne.1 [mkClean none none] _ (by decide) rfl

/-- C4: the anomaly detector produces no anomaly rows for a product with 9 or
fewer observations, and every anomaly row it produces belongs to a product
with at least 10 observations — whatever rows the fitted outlier model
flags. -/
theorem anomaly_min_ten_obs (detect : List Obs → List Obs) (df : List Obs) (p : String) :
    ((df.filter (fun o => o.product_clean == p)).length ≤ 9 →
      (create_price_anomaly_detector detect df).filter (fun a => a.product == p) = [])
    ∧ (∀ a ∈ create_price_anomaly_detector detect df,
        10 ≤ (df.filter (fun o => o.product_clean == a.product)).length) := by
  have key : ∀ a ∈ create_price_anomaly_detector detect df,
      10 ≤ (df.filter (fun o => o.product_clean == a.product)).length := by
    intro a ha
    rcases List.mem_flatMap.mp ha with ⟨p0, _, hbody⟩
    by_cases hlen : (df.filter (fun o => o.product_clean == p0)).length < 10
    · rw [if_pos hlen] at hbody
      simp at hbody
    · rw [if_neg hlen] at hbody
      rcases List.mem_map.mp hbody with ⟨o, _, rfl⟩
      simpa using not_lt.mp hlen
  refine ⟨?_, key⟩
  intro hle
  rw [List.filter_eq_nil_iff]
  intro a ha hap
  have h10 := key a ha
  rw [beq_iff_eq] at hap
  rw [hap] at h10
  omega

theorem anomaly_min_ten_obs_witness :
    (exObsNine.filter (fun o => o.product_clean == "P")).length ≤ 9
    ∧ (create_price_anomaly_detector (fun l => l) exObsNine).filter
        (fun a => a.product == "P") = [] :=
  ⟨by decide, (anomaly_min_ten_obs (fun l => l) exObsNine "P").1 (by decide)⟩

theorem renormalize_fixes_normalized (pd : String → Option Date) (r : RawRec) :
    renormalizeRecord (normalizeRecord pd r) = normalizeRecord pd r := rfl

/-- C3: full-row deduplication at normalization time is idempotent — cleaning
a batch and then cleaning its own output yields the identical record list
(every derived column is recomputed to the same value, and no duplicate
survives the first pass), and the first pass already contains no duplicate
row. -/
theorem normalization_dedup_idempotent (pd : String → Option Date) (rows : List RawRec) :
    clean_data_again (clean_data pd rows) = clean_data pd rows
    ∧ (clean_data pd rows).Nodup := by
  constructor
  · unfold clean_data_again clean_data
    have hfix : ∀ x ∈ dropDuplicates (rows.map (normalizeRecord pd)),
        renormalizeRecord x = x := by
      intro x hx
      rcases List.mem_map.mp ((mem_dropDuplicates x _).mp hx) with ⟨raw, _, rfl⟩
      exact renormalize_fixes_normalized pd raw
    rw [List.map_congr_left hfix, List.map_id']
    exact dropDuplicates_idem _
  · exact nodup_dropDuplicates _

theorem pyFloatOfToken_nonneg {l : List Char} {v : ℚ}
    (h : pyFloatOfToken l = some v) : 0 ≤ v := by
  simp only [pyFloatOfToken] at h
  split at h
  · split at h
    · exact absurd h (by simp)
    · injection h with h
      rw [← h]
      positivity
  · split at h
    · injection h with h
      rw [← h]
      positivity
    · exact absurd h (by simp)
  · exact absurd h (by simp)

theorem tryPricePatterns_cons_miss {p : List Char → Option (List Char)}
    {ps : List (List Char → Option (List Char))} {u : List Char}
    (hr : reSearch p u = none) :
    tryPricePatterns (p :: ps) u = tryPricePatterns ps u := by
  conv_lhs => unfold tryPricePatterns
  rw [hr]

theorem tryPricePatterns_cons_badparse {p : List Char → Option (List Char)}
    {ps : List (List Char → Option (List Char))} {u cap : List Char}
    (hr : reSearch p u = some cap)
    (hf : pyFloatOfToken (cap.map commaToDot) = none) :
    tryPricePatterns (p :: ps) u = tryPricePatterns ps u := by
  conv_lhs => unfold tryPricePatterns
  rw [hr]
  dsimp only
  rw [hf]

theorem tryPricePatterns_cons_hit {p : List Char → Option (List Char)}
    {ps : List (List Char → Option (List Char))} {u cap : List Char} {w : ℚ}
    (hr : reSearch p u = some cap)
    (hf : pyFloatOfToken (cap.map commaToDot) = some w) :
    tryPricePatterns (p :: ps) u = some w := by
  conv_lhs => unfold tryPricePatterns
  rw [hr]
  dsimp only
  rw [hf]

theorem tryPricePatterns_nonneg :
    ∀ (ps : List (List Char → Option (List Char))) (u : List Char) (v : ℚ),
      tryPricePatterns ps u = some v → 0 ≤ v := by
  intro ps
  induction ps with
  | nil =>
    intro u v h
    exact absurd h (by simp [tryPricePatterns])
  | cons p rest ih =>
    intro u v h
    cases hr : reSearch p u with
    | none =>
      rw [tryPricePatterns_cons_miss hr] at h
      exact ih u v h
    | some cap =>
      cases hf : pyFloatOfToken (cap.map commaToDot) with
      | none =>
        rw [tryPricePatterns_cons_badparse hr hf] at h
        exact ih u v h
      | some w =>
        rw [tryPricePatterns_cons_hit hr hf] at h
        injection h with h
        exact h ▸ pyFloatOfToken_nonneg hf

theorem tryPricePatterns_allMiss :
    ∀ (ps : List (List Char → Option (List Char))) (u : List Char),
      (∀ m ∈ ps, reSearch m u = none) → tryPricePatterns ps u = none := by
  intro ps
  induction ps with
  | nil => intro u _; rfl
  | cons p rest ih =>
    intro u h
    rw [tryPricePatterns_cons_miss (h p (List.mem_cons_self p rest))]
    exact ih u (fun m hm => h m (List.mem_cons_of_mem p hm))

/-- C2 counterexample: the text `"0 €"` matches the fourth price pattern and
parses to the price `0`, which is not a positive real number — so a non-null
extracted price need not be positive. -/
theorem price_extraction_zero_counterexample :
    clean_price_text (some "0 €") = some 0 ∧ ¬(0 < (0 : ℚ)) :=
  ⟨by decide, by norm_num⟩

/-- C2 (amended): price extraction tries the ordered pattern list with the
first successful match winning and commas normalized to dots; it is total
(never raises), returns a null price when no pattern matches, and every
non-null extracted price is a nonnegative real number (zero is possible, so
positivity fails). -/
theorem price_extraction_nonneg :
    (∀ t v, clean_price_text t = some v → 0 ≤ v)
    ∧ (∀ s : String, (∀ m ∈ pricePatterns, reSearch m (pyUpper s) = none) →
        clean_price_text (some s) = none) := by
  constructor
  · intro t v h
    cases t with
    | none => exact absurd h (by simp [clean_price_text])
    | some s => exact tryPricePatterns_nonneg _ _ _ h
  · intro s h
    exact tryPricePatterns_allMiss _ _ h

theorem price_extraction_nonneg_witness :
    clean_price_text (some "12,50 €") = some (25 / 2) ∧ (0 : ℚ) ≤ 25 / 2 :=
  ⟨by decide, price_extraction_nonneg.1 (some "12,50 €") (25 / 2) (by decide)⟩

/-- C9 counterexample: in a batch containing one priced and one price-less
record, the price-less record receives the NaN category `pd.cut` assigns to
missing values, not the explicit `'Non disponible'` band. -/
theorem price_band_mixed_counterexample :
    ((add_derived_features exCleanMixed).map (fun e => e.price_category))
      = [PriceCat.cat "2-5€", PriceCat.catNaN]
    ∧ PriceCat.catNaN ≠ PriceCat.nonDispo :=
  ⟨by decide, by decide⟩

/-- C9 (amended): in a batch with at least one non-null price, every record
with a positive price gets one of the five fixed bands while every record
with a null price gets the undefined (NaN) category — not the `'Non
disponible'` band; in an all-null batch every record gets the `'Non
disponible'` band. -/
theorem price_band_assignment (rs : List CleanRec) :
    ((rs.any fun r => r.price.isSome) = true →
      ∀ e ∈ add_derived_features rs,
        (e.price = none → e.price_category = PriceCat.catNaN)
        ∧ (∀ q, e.price = some q → 0 < q →
            ∃ lab, e.price_category = PriceCat.cat lab ∧ lab ∈ bandLabels))
    ∧ ((rs.all fun r => r.price.isNone) = true →
      ∀ e ∈ add_derived_features rs, e.price_category = PriceCat.nonDispo) := by
  constructor
  · intro h e he
    rcases List.mem_map.mp he with ⟨r, _, rfl⟩
    constructor
    · intro hp
      show (if (rs.any fun r => r.price.isSome) = true
              then cutPrice r.price else PriceCat.nonDispo) = PriceCat.catNaN
      rw [if_pos h]
      have : r.price = none := hp
      rw [this]
      rfl
    · intro q hq hpos
      show ∃ lab, (if (rs.any fun r => r.price.isSome) = true
              then cutPrice r.price else PriceCat.nonDispo) = PriceCat.cat lab
            ∧ lab ∈ bandLabels
      rw [if_pos h]
      have : r.price = some q := hq
      rw [this]
      unfold cutPrice
      dsimp only
      by_cases c1 : q ≤ 2
      · rw [if_pos ⟨hpos, c1⟩]
        exact ⟨_, rfl, by decide⟩
      · rw [if_neg (fun hc => c1 hc.2)]
        by_cases c2 : q ≤ 5
        · rw [if_pos ⟨not_le.mp c1, c2⟩]
          exact ⟨_, rfl, by decide⟩
        · rw [if_neg (fun hc => c2 hc.2)]
          by_cases c3 : q ≤ 10
          · rw [if_pos ⟨not_le.mp c2, c3⟩]
            exact ⟨_, rfl, by decide⟩
          · rw [if_neg (fun hc => c3 hc.2)]
            by_cases c4 : q ≤ 20
            · rw [if_pos ⟨not_le.mp c3, c4⟩]
              exact ⟨_, rfl, by decide⟩
            · rw [if_neg (fun hc => c4 hc.2), if_pos (not_le.mp c4)]
              exact ⟨_, rfl, by decide⟩
  · intro h e he
    rcases List.mem_map.mp he with ⟨r, _, rfl⟩
    show (if (rs.any fun r => r.price.isSome) = true
            then cutPrice r.price else PriceCat.nonDispo) = PriceCat.nonDispo
    rw [if_neg]
    intro hcontra
    rcases List.any_eq_true.mp hcontra with ⟨r0, hr0, hsome⟩
    have hnone := List.all_eq_true.mp h r0 hr0
    rw [Option.isNone_iff_eq_none] at hnone
    rw [hnone] at hsome
    simp at hsome

theorem price_band_assignment_witness :
    (exCleanMixed.any fun r => r.price.isSome) = true
    ∧ ∃ lab,
        ({ toCleanRec := mkClean (some { ord := 0, month := 5 }) (some 5),
           month := some 5, season := "Printemps", product_category := "Autre",
           price_category := PriceCat.cat "2-5€" } : EnrichedRec).price_category
          = PriceCat.cat lab ∧ lab ∈ bandLabels :=
  ⟨by decide,
    ((price_band_assignment exCleanMixed).1 (by decide) _ (by decide)).2 5 rfl (by norm_num)⟩

theorem priceChanges_constant {ps : List (Option ℚ)} {c : ℚ}
    (h : ∀ v ∈ ps, v = some c) :
    ∀ f ∈ priceChanges ps, f = elemDiffOver (some c) (some c) := by
  intro f hf
  rcases List.mem_map.mp hf with ⟨z, hz, rfl⟩
  rcases List.of_mem_zip hz with ⟨h1, h2⟩
  rw [h z.1 h1, h z.2 (List.mem_of_mem_tail h2)]

theorem priceChanges_length (ps : List (Option ℚ)) :
    (priceChanges ps).length = ps.length - 1 := by
  unfold priceChanges
  rw [List.length_map, List.length_zip, List.length_tail]
  omega

theorem elasticityValue_constant (rval : List F → List F → ℚ)
    {pdata : List Obs} {c : ℚ}
    (hall : ∀ o ∈ pdata, o.price = some c) (hlen : 5 ≤ pdata.length) :
    elasticityValue rval pdata = 0 := by
  have hps : ∀ v ∈ pdata.map (fun o => o.price), v = some c := by
    intro v hv
    rcases List.mem_map.mp hv with ⟨o, ho, rfl⟩
    exact hall o ho
  have hconstch := priceChanges_constant hps
  have hx : ∀ f ∈ (priceChanges (pdata.map fun o => o.price)).drop 1,
      f = elemDiffOver (some c) (some c) :=
    fun f hf => hconstch f (List.drop_subset 1 _ hf)
  have hxlen : 0 < ((priceChanges (pdata.map fun o => o.price)).drop 1).length := by
    rw [List.length_drop, priceChanges_length, List.length_map]
    omega
  rcases List.exists_mem_of_length_pos hxlen with ⟨f0, hf0⟩
  unfold elasticityValue
  suffices hnan : corrIsNaN ((priceChanges (pdata.map fun o => o.price)).drop 1)
      ((priceChanges (pdata.map fun o => o.price)).dropLast) = true by
    rw [if_pos hnan]
  by_cases hc : c = 0
  · have hchn : elemDiffOver (some c) (some c) = F.nan := by
      subst hc
      rfl
    have hany : ((priceChanges (pdata.map fun o => o.price)).drop 1).any
        (fun v => !v.isVal) = true :=
      List.any_eq_true.mpr ⟨f0, hf0, by rw [hx f0 hf0, hchn]; rfl⟩
    unfold corrIsNaN
    rw [hany]
    simp only [Bool.true_or]
  · have hch0 : elemDiffOver (some c) (some c) = F.val 0 := by
      have hred : elemDiffOver (some c) (some c) = pyDiv (c - c) c := rfl
      rw [hred, sub_self]
      unfold pyDiv
      rw [if_neg hc, zero_div]
    have hallz : ∀ q ∈ ((priceChanges (pdata.map fun o => o.price)).drop 1).filterMap forgetF,
        q = 0 := by
      intro q hq
      rcases List.mem_filterMap.mp hq with ⟨v, hv, hfv⟩
      rw [hx v hv, hch0] at hfv
      injection hfv with hfv
      exact hfv.symm
    have h3 : qdevsq (((priceChanges (pdata.map fun o => o.price)).drop 1).filterMap forgetF)
        = 0 := qdevsq_eq_zero hallz
    unfold corrIsNaN
    rw [h3]
    simp only [beq_self_eq_true, Bool.or_true, Bool.true_or]

/-- C6: for every product with at least 5 observations whose price never
changes across the series, the elasticity estimator returns exactly 0 (not
NaN and not an error): the NaN lag-1 autocorrelation of the constant series
is replaced by zero before the row is emitted. -/
theorem elasticity_constant_price (rval : List F → List F → ℚ) (df : List Obs)
    (p : String) (c : ℚ)
    (hconst : ∀ o ∈ df, o.product_clean = p → o.price = some c)
    (hcount : 5 ≤ (df.filter (fun o => o.product_clean == p)).length) :
    (∀ row ∈ create_price_elasticity_analyzer rval df,
        row.product = p → row.elasticity = 0)
    ∧ (∃ row ∈ create_price_elasticity_analyzer rval df,
        row.product = p ∧ row.elasticity = 0) := by
  have hallp : ∀ p0, ∀ o ∈ sortByDate (df.filter (fun o => o.product_clean == p0)),
      o.product_clean = p0 ∧ o ∈ df := by
    intro p0 o ho
    rcases List.mem_filter.mp (mem_sortByDate.mp ho) with ⟨hodf, hbeq⟩
    exact ⟨beq_iff_eq.mp hbeq, hodf⟩
  have hvalue : ∀ p0, p0 = p →
      5 ≤ (sortByDate (df.filter (fun o => o.product_clean == p0))).length →
      elasticityValue rval (sortByDate (df.filter (fun o => o.product_clean == p0))) = 0 := by
    intro p0 hp0 hlen
    have hallc : ∀ o ∈ sortByDate (df.filter (fun o => o.product_clean == p0)),
        o.price = some c := by
      intro o ho
      rcases hallp p0 o ho with ⟨hprod, hodf⟩
      exact hconst o hodf (hp0 ▸ hprod)
    exact elasticityValue_constant rval hallc hlen
  constructor
  · intro row hrow hprod
    rcases List.mem_flatMap.mp hrow with ⟨p0, _, hbody⟩
    by_cases hl : (sortByDate (df.filter (fun o => o.product_clean == p0))).length < 5
    · rw [if_pos hl] at hbody
      simp at hbody
    · rw [if_neg hl] at hbody
      simp only [List.mem_singleton] at hbody
      subst hbody
      have hp0 : p0 = p := hprod
      show |elasticityValue rval (sortByDate (df.filter (fun o => o.product_clean == p0)))| = 0
      rw [hvalue p0 hp0 (not_lt.mp hl), abs_zero]
  · have hflen : 5 ≤ (sortByDate (df.filter (fun o => o.product_clean == p))).length := by
      rw [length_sortByDate]
      exact hcount
    have hpmem : p ∈ uniqueVals (df.map fun o => o.product_clean) := by
      apply (mem_dropDuplicates _ _).mpr
      have hpos : 0 < (df.filter (fun o => o.product_clean == p)).length := by omega
      rcases List.exists_mem_of_length_pos hpos with ⟨o, ho⟩
      rcases List.mem_filter.mp ho with ⟨hodf, hbeq⟩
      exact List.mem_map.mpr ⟨o, hodf, beq_iff_eq.mp hbeq⟩
    refine ⟨{ product := p,
              elasticity :=
                |elasticityValue rval (sortByDate (df.filter (fun o => o.product_clean == p)))|,
              elasticity_category := get_elasticity_category
                |elasticityValue rval (sortByDate (df.filter (fun o => o.product_clean == p)))|,
              price_sensitivity := get_price_sensitivity
                |elasticityValue rval (sortByDate (df.filter (fun o => o.product_clean == p)))| },
            List.mem_flatMap.mpr ⟨p, hpmem, ?_⟩, rfl, ?_⟩
    · rw [if_neg (not_lt.mpr hflen)]
      exact List.mem_singleton_self _
    · show |elasticityValue rval (sortByDate (df.filter (fun o => o.product_clean == p)))| = 0
      rw [hvalue p rfl hflen, abs_zero]

theorem elasticity_constant_price_witness :
    (∀ o ∈ exObsElastic, o.product_clean = "E" → o.price = some 3)
    ∧ ∃ row ∈ create_price_elasticity_analyzer (fun _ _ => 1) exObsElastic,
        row.product = "E" ∧ row.elasticity = 0 :=
  ⟨by decide,
    (elasticity_constant_price (fun _ _ => 1) exObsElastic "E" 3
      (by decide) (by decide)).2⟩

theorem varAlertList_filter_self (df : List Obs) (p : String) (t : ℚ) :
    (varAlertList df p t).filter (fun a => a.atype == "variation_significative")
      = varAlertList df p t := by
  apply List.filter_eq_self.mpr
  intro a ha
  unfold varAlertList at ha
  rcases List.mem_map.mp ha with ⟨z, _, rfl⟩
  rfl

theorem outlierAlertList_filter_nil (df : List Obs) (p : String) :
    (outlierAlertList df p).filter (fun a => a.atype == "variation_significative")
      = [] := by
  apply List.filter_eq_nil_iff.mpr
  intro a ha
  unfold outlierAlertList at ha
  dsimp only at ha
  split at ha
  · simp at ha
  · rcases List.mem_map.mp ha with ⟨o, _, rfl⟩
    dsimp only
    rcases o.price with _ | q
    · dsimp only
      decide
    · dsimp only
      split
      · decide
      · decide

theorem variationAlerts_eq (df : List Obs) (p : String) (t : ℚ) :
    variationAlerts df p t
      = if (alertPdata df p).length < 2 then [] else varAlertList df p t := by
  unfold variationAlerts create_alert_system
  split
  · rfl
  · rw [List.filter_append, varAlertList_filter_self, outlierAlertList_filter_nil,
      List.append_nil]

theorem mem_varAlertList {df : List Obs} {p : String} {t : ℚ} {a : Alert} :
    a ∈ varAlertList df p t ↔
      ∃ z ∈ (alertPdata df p).zip (pctList ((alertPdata df p).map fun o => o.price)),
        fAbsGt z.2 t = true ∧ a = mkVarAlert z := by
  unfold varAlertList
  simp only [List.mem_map, List.mem_filter]
  constructor
  · rintro ⟨z, ⟨hz, hflag⟩, rfl⟩
    exact ⟨z, hz, hflag, rfl⟩
  · rintro ⟨z, hz, hflag, rfl⟩
    exact ⟨z, ⟨hz, hflag⟩, rfl⟩

theorem short_series_no_flag {pdata : List Obs} {t : ℚ} (h : pdata.length < 2) :
    ∀ z ∈ pdata.zip (pctList (pdata.map fun o => o.price)),
      fAbsGt z.2 t = false := by
  rcases pdata with _ | ⟨o, _ | ⟨o2, rest⟩⟩
  · intro z hz
    simp [List.zip] at hz
  · intro z hz
    have hred : [o].zip (pctList ([o].map fun o => o.price)) = [(o, F.nan)] := rfl
    rw [hred] at hz
    rcases List.mem_singleton.mp hz with rfl
    rfl
  · simp at h
    omega

theorem pctList_constant_not_flagged {ps : List (Option ℚ)} {c t : ℚ}
    (hps : ∀ v ∈ ps, v = some c) (ht : 0 ≤ t) :
    ∀ f ∈ pctList ps, fAbsGt f t = false := by
  intro f hf
  rcases List.mem_cons.mp hf with rfl | hf
  · rfl
  · rcases List.mem_map.mp hf with ⟨z, hz, rfl⟩
    rcases List.of_mem_zip hz with ⟨h1, h2⟩
    rw [hps z.1 h1, hps z.2 (List.mem_of_mem_tail h2)]
    by_cases hc : c = 0
    · subst hc
      rfl
    · have hred : fmul100 (elemDiffOver (some c) (some c)) = fmul100 (pyDiv (c - c) c) := rfl
      rw [hred, sub_self]
      unfold pyDiv
      rw [if_neg hc, zero_div]
      show fAbsGt (F.val (100 * 0)) t = false
      rw [mul_zero]
      have hred2 : fAbsGt (F.val 0) t = decide (t < |(0 : ℚ)|) := rfl
      rw [hred2, abs_zero]
      exact decide_eq_false (not_lt.mpr ht)

/-- C7 (amended): the alert generator flags an observation of the date-sorted
series as a significant-variation alert exactly when `abs(pct_change) >
threshold` holds for its day-over-day percentage change (NaN first entries
are never flagged); for nonnegative thresholds a constant series produces no
variation alert; and on prices [10, 10, 10, 50] with threshold 20 exactly
the 10→50 transition is flagged, with a 400% change.  (For a negative
threshold a constant transition is flagged, so "regardless of threshold"
fails as stated.) -/
theorem alert_variation_exactly (df : List Obs) (p : String) (t c : ℚ) :
    (∀ a, a ∈ variationAlerts df p t ↔
        ∃ z ∈ (alertPdata df p).zip (pctList ((alertPdata df p).map fun o => o.price)),
          fAbsGt z.2 t = true ∧ a = mkVarAlert z)
    ∧ (0 ≤ t → (∀ o ∈ df, o.product_clean = p → o.price = some c) →
        variationAlerts df p t = [])
    ∧ variationAlerts exObsAlerts "T" 20
        = [{ atype := "variation_significative", date := { ord := 3, month := 1 },
             prix := some 50, variation := some (F.val 400), marche := "M" }] := by
  have hmain : ∀ a, a ∈ variationAlerts df p t ↔
      ∃ z ∈ (alertPdata df p).zip (pctList ((alertPdata df p).map fun o => o.price)),
        fAbsGt z.2 t = true ∧ a = mkVarAlert z := by
    intro a
    rw [variationAlerts_eq]
    split
    · constructor
      · intro ha
        simp at ha
      · rintro ⟨z, hz, hflag, rfl⟩
        rename_i hshort
        rw [short_series_no_flag hshort z hz] at hflag
        exact absurd hflag (by simp)
    · exact mem_varAlertList
  refine ⟨hmain, ?_, by decide⟩
  intro ht hconst
  rw [List.eq_nil_iff_forall_not_mem]
  intro a ha
  rcases (hmain a).mp ha with ⟨z, hz, hflag, _⟩
  have hps : ∀ v ∈ (alertPdata df p).map (fun o => o.price), v = some c := by
    intro v hv
    rcases List.mem_map.mp hv with ⟨o, ho, rfl⟩
    rcases List.mem_filter.mp (mem_sortByDate.mp ho) with ⟨hodf, hbeq⟩
    exact hconst o hodf (beq_iff_eq.mp hbeq)
  have := pctList_constant_not_flagged hps ht z.2 (List.of_mem_zip hz).2
  rw [this] at hflag
  exact absurd hflag (by simp)

theorem alert_variation_exactly_witness :
    (0 : ℚ) ≤ 20 ∧ variationAlerts exObsConstant "A" 20 = [] :=
  ⟨by norm_num,
    (alert_variation_exactly exObsConstant "A" 20 10).2.1 (by norm_num) (by decide)⟩

/-- C7 counterexample: with the (negative) threshold -1, the constant
transition 10→10 — a 0% day-over-day change — is flagged as a significant
variation, so constant transitions are not "never flagged regardless of
threshold". -/
theorem alert_negative_threshold_counterexample :
    (∀ o ∈ exObsConstant, o.price = some 10)
    ∧ (variationAlerts exObsConstant "A" (-1)).map (fun a => a.variation)
        = [some (F.val 0)] :=
  ⟨by decide, by decide⟩


theorem fdivF_nan_left (x : F) : fdivF F.nan x = F.nan := by
  cases x <;> rfl

theorem pymin_val_lt {a b : ℚ} (h : b < a) : pymin (F.val a) (F.val b) = F.val b := by
  unfold pymin
  rw [show flt (F.val b) (F.val a) = decide (b < a) from rfl, decide_eq_true h]
  simp

theorem pymin_val_ge {a b : ℚ} (h : ¬b < a) : pymin (F.val a) (F.val b) = F.val a := by
  unfold pymin
  rw [show flt (F.val b) (F.val a) = decide (b < a) from rfl, decide_eq_false h]
  simp

theorem pymax_val_lt {a b : ℚ} (h : a < b) : pymax (F.val a) (F.val b) = F.val b := by
  unfold pymax
  rw [show flt (F.val a) (F.val b) = decide (a < b) from rfl, decide_eq_true h]
  simp

theorem pymax_val_ge {a b : ℚ} (h : ¬a < b) : pymax (F.val a) (F.val b) = F.val a := by
  unfold pymax
  rw [show flt (F.val a) (F.val b) = decide (a < b) from rfl, decide_eq_false h]
  simp

theorem clampScore_range (s : F) :
    ∃ q, clampScore s = F.val q ∧ 0 ≤ q ∧ q ≤ 100 := by
  cases s with
  | nan => exact ⟨100, by decide, by norm_num, by norm_num⟩
  | pinf => exact ⟨100, by decide, by norm_num, by norm_num⟩
  | ninf => exact ⟨0, by decide, by norm_num, by norm_num⟩
  | val q =>
    unfold clampScore
    by_cases h1 : q < 100
    · rw [pymin_val_lt h1]
      by_cases h2 : 0 < q
      · rw [pymax_val_lt h2]
        exact ⟨q, rfl, h2.le, h1.le⟩
      · rw [pymax_val_ge h2]
        exact ⟨0, rfl, le_refl 0, by norm_num⟩
    · rw [pymin_val_ge h1, pymax_val_lt (by norm_num : (0 : ℚ) < 100)]
      exact ⟨100, rfl, by norm_num, le_refl 100⟩

/-- C8 (amended): the sentiment scorer has no NaN guard on its volatility —
for a product group whose price column leaves at most one non-NaN value (so
`std` is NaN) the NaN volatility is stored as-is in the returned result
table; the composite sentiment score, by contrast, always clamps to an
ordinary value in [0, 100] because Python's `min`/`max` treat the NaN
comparisons as false. -/
theorem sentiment_nan_unguarded (sqrtQ : ℚ → ℚ) (df : List Obs) :
    ∀ row ∈ create_market_sentiment_analyzer sqrtQ df,
      (∃ q, row.sentiment_score = F.val q ∧ 0 ≤ q ∧ q ≤ 100)
      ∧ (((df.filter (fun o => o.product_clean == row.product)).filterMap
            (fun o => o.price)).length ≤ 1 → row.volatility = F.nan) := by
  intro row hrow
  rcases List.mem_map.mp hrow with ⟨p, _, rfl⟩
  constructor
  · exact clampScore_range _
  · intro hlen
    have hlen2 :
        ((df.filter (fun o => o.product_clean == p)).filterMap fun o => o.price).length
          ≤ 1 := hlen
    show fdivF
        (sampleStd sqrtQ
          ((df.filter (fun o => o.product_clean == p)).filterMap fun o => o.price))
        (pmeanF ((df.filter (fun o => o.product_clean == p)).filterMap fun o => o.price))
      = F.nan
    unfold sampleStd
    rw [if_pos hlen2]
    exact fdivF_nan_left _

theorem sentiment_nan_unguarded_witness :
    exSentimentRow ∈ create_market_sentiment_analyzer id exObsSingle
    ∧ exSentimentRow.volatility = F.nan := by
  have hlist : create_market_sentiment_analyzer id exObsSingle = [exSentimentRow] := by
    decide
  have hmem : exSentimentRow ∈ create_market_sentiment_analyzer id exObsSingle := by
    rw [hlist]
    exact List.mem_singleton_self _
  exact ⟨hmem, (sentiment_nan_unguarded id exObsSingle _ hmem).2 (by decide)⟩

/-- C8 counterexample: the volatility column of the returned sentiment table
contains NaN — for a group with a single priced observation (NaN sample
std), and likewise for a group with two observations priced 0 (zero mean,
`0/0`).  No guard normalizes it to 0 or null, refuting the claimed guard
logic. -/
theorem sentiment_nan_counterexample :
    (create_market_sentiment_analyzer id exObsSingle).map (fun r => r.volatility)
        = [F.nan]
    ∧ (create_market_sentiment_analyzer id exObsZeroMean).map (fun r => r.volatility)
        = [F.nan] :=
  ⟨by decide, by decide⟩

end AgroTableau
